import Mathlib

/-
Verification development for the conversation-predictor repository.

The frontend sources (lib/utils.ts, components/ChatInterface.tsx,
components/AnalysisPanel.tsx, components/visualizations/*.tsx,
types/index.ts, server/.env.example) are embedded directly.  The Python
prediction-engine backend (ConversationNode, TreeBuilder, Pruner) is not
part of the shipped sources, so its data model and operations are
modelled from the specification text; those definitions are marked
accordingly.  Probabilities and numeric scores are represented as exact
rationals.
-/

namespace ConvPred

/-! ## JSON values and a model of the host JSON.parse primitive

`JSON.parse` is a host-environment primitive (not repository code).  We
model it as a total recursive-descent parser over a representative JSON
grammar: null, booleans, integer numerals, strings with simple escapes,
arrays and objects.  Fuel makes totality structural; the fuel budget
chosen by `jsonParse` is large enough for any input of the given length.
-/

/-- JSON values, as produced by the modelled JSON.parse. -/
inductive JsonVal : Type where
  | jnull : JsonVal
  | jbool (b : Bool) : JsonVal
  | jnum (q : ℚ) : JsonVal
  | jstr (s : String) : JsonVal
  | jarr (xs : List JsonVal) : JsonVal
  | jobj (fields : List (String × JsonVal)) : JsonVal

/-- The opening-brace character, by code point. -/
def braceL : Char := Char.ofNat 123

/-- The closing-brace character, by code point. -/
def braceR : Char := Char.ofNat 125

/-- Whitespace recognized by the JSON grammar. -/
def isJsonWs (c : Char) : Bool :=
  c = ' ' || c = '\n' || c = '\t' || c = '\r'

/-- Drop leading JSON whitespace. -/
def skipWs : List Char → List Char
  | [] => []
  | c :: cs => if isJsonWs c then skipWs cs else c :: cs

/-- Read the body of a string literal up to the closing quote,
handling backslash escapes. -/
def parseStrChars : Nat → List Char → Except String (List Char × List Char)
  | 0, _ => .error "out of fuel"
  | _ + 1, [] => .error "unterminated string"
  | fuel + 1, c :: cs =>
    if c = '"' then .ok ([], cs)
    else if c = '\\' then
      match cs with
      | [] => .error "bad escape"
      | e :: cs' =>
        let ec := if e = 'n' then '\n' else if e = 't' then '\t' else e
        match parseStrChars fuel cs' with
        | .ok (s, rest) => .ok (ec :: s, rest)
        | .error m => .error m
    else
      match parseStrChars fuel cs with
      | .ok (s, rest) => .ok (c :: s, rest)
      | .error m => .error m

/-- Read a run of decimal digits, accumulating their value. -/
def readDigits (acc : Nat) : List Char → Nat × List Char
  | [] => (acc, [])
  | c :: cs =>
    if c.isDigit then readDigits (acc * 10 + (c.toNat - 48)) cs
    else (acc, c :: cs)

mutual

/-- Parse one JSON value. -/
def parseVal : Nat → List Char → Except String (JsonVal × List Char)
  | 0, _ => .error "out of fuel"
  | fuel + 1, l =>
    match skipWs l with
    | [] => .error "unexpected end of input"
    | c :: cs =>
      if c = '"' then
        match parseStrChars (fuel + 1) cs with
        | .ok (s, rest) => .ok (.jstr ⟨s⟩, rest)
        | .error m => .error m
      else if c = 'n' then
        match cs with
        | 'u' :: 'l' :: 'l' :: rest => .ok (.jnull, rest)
        | _ => .error "bad literal"
      else if c = 't' then
        match cs with
        | 'r' :: 'u' :: 'e' :: rest => .ok (.jbool true, rest)
        | _ => .error "bad literal"
      else if c = 'f' then
        match cs with
        | 'a' :: 'l' :: 's' :: 'e' :: rest => .ok (.jbool false, rest)
        | _ => .error "bad literal"
      else if c = '-' then
        match cs with
        | d :: ds =>
          if d.isDigit then
            let (n, rest) := readDigits (d.toNat - 48) ds
            .ok (.jnum (-(n : ℚ)), rest)
          else .error "bad number"
        | [] => .error "bad number"
      else if c.isDigit then
        let (n, rest) := readDigits (c.toNat - 48) cs
        .ok (.jnum (n : ℚ), rest)
      else if c = '[' then
        match skipWs cs with
        | ']' :: rest => .ok (.jarr [], rest)
        | l' =>
          match parseArrItems fuel l' with
          | .ok (xs, rest) => .ok (.jarr xs, rest)
          | .error m => .error m
      else if c = braceL then
        match skipWs cs with
        | c' :: rest =>
          if c' = braceR then .ok (.jobj [], rest)
          else
            match parseObjItems fuel (c' :: rest) with
            | .ok (fs, rest') => .ok (.jobj fs, rest')
            | .error m => .error m
        | [] => .error "unterminated object"
      else .error "unexpected character"

/-- Parse the comma-separated items of an array, then the closing bracket. -/
def parseArrItems : Nat → List Char → Except String (List JsonVal × List Char)
  | 0, _ => .error "out of fuel"
  | fuel + 1, l =>
    match parseVal fuel l with
    | .error m => .error m
    | .ok (v, rest) =>
      match skipWs rest with
      | ']' :: rest' => .ok ([v], rest')
      | ',' :: rest' =>
        match parseArrItems fuel rest' with
        | .ok (xs, rest'') => .ok (v :: xs, rest'')
        | .error m => .error m
      | _ => .error "expected comma or close bracket"

/-- Parse the comma-separated key-value pairs of an object, then the
closing brace. -/
def parseObjItems : Nat → List Char → Except String (List (String × JsonVal) × List Char)
  | 0, _ => .error "out of fuel"
  | fuel + 1, l =>
    match skipWs l with
    | c :: cs =>
      if c = '"' then
        match parseStrChars (fuel + 1) cs with
        | .error m => .error m
        | .ok (k, rest) =>
          match skipWs rest with
          | ':' :: rest' =>
            match parseVal fuel rest' with
            | .error m => .error m
            | .ok (v, rest'') =>
              match skipWs rest'' with
              | c' :: rest''' =>
                if c' = braceR then .ok ([(⟨k⟩, v)], rest''')
                else if c' = ',' then
                  match parseObjItems fuel rest''' with
                  | .ok (fs, r) => .ok ((⟨k⟩, v) :: fs, r)
                  | .error m => .error m
                else .error "expected comma or close brace"
              | [] => .error "unterminated object"
          | _ => .error "expected colon"
      else .error "expected key"
    | [] => .error "unterminated object"

end

/-- The modelled JSON.parse: parse one value and require only trailing
whitespace after it. -/
def jsonParse (s : String) : Except String JsonVal :=
  match parseVal (2 * s.length + 8) s.data with
  | .error m => .error m
  | .ok (v, rest) =>
    match skipWs rest with
    | [] => .ok v
    | _ => .error "unexpected trailing characters"

/-- Embedding of `parseWSMessage` from frontend/lib/utils.ts: JSON.parse
wrapped in try/catch; a parse failure is logged and yields null (`none`)
instead of propagating the exception. -/
def parseWSMessage (data : String) : Option JsonVal :=
  match jsonParse data with
  | .ok v => some v
  | .error _ => none

/-! ## createRetryFn (frontend/lib/utils.ts)

The source recursion is
`retry(attempt)`: try `fn()`; on error, rethrow when `attempt === maxRetries`,
otherwise wait `baseDelay * 2 ^ attempt` milliseconds and call
`retry(attempt + 1)`.  We embed it with the behaviour of `fn` on its k-th
invocation given as `f k : Except E A`, returning the list of delays that
were awaited together with the final outcome.  The structural fuel
`remaining` stands for `maxRetries - attempt`: `remaining = 0` exactly
when `attempt === maxRetries`, where the source rethrows. -/

/-- One `retry(attempt)` call with `remaining = maxRetries - attempt`
retries still allowed.  Returns (delays awaited, final outcome). -/
def retryAux {E A : Type} (f : Nat → Except E A) (baseDelay : Nat) :
    Nat → Nat → List Nat × Except E A
  | attempt, 0 => ([], f attempt)
  | attempt, remaining + 1 =>
    match f attempt with
    | .ok a => ([], .ok a)
    | .error _ =>
      let r := retryAux f baseDelay (attempt + 1) remaining
      (baseDelay * 2 ^ attempt :: r.1, r.2)

/-- Embedding of `createRetryFn(fn, maxRetries, baseDelay)` applied once:
the wrapped call starts at attempt 0. -/
def createRetryFn {E A : Type} (f : Nat → Except E A) (maxRetries baseDelay : Nat) :
    List Nat × Except E A :=
  retryAux f baseDelay 0 maxRetries

/-! ## Frontend message types (frontend/types/index.ts and
frontend/components/visualizations/MonteCarloMatrix.tsx) -/

/-- One alternative entry of an analysis result
(frontend/types/index.ts, `alternatives` element shape). -/
structure AltEntry where
  message : String
  score : ℚ

/-- Embedding of `AnalysisResult` (frontend/types/index.ts). -/
structure AnalysisResult where
  score : ℚ
  message : String
  alternatives : List AltEntry

/-- Embedding of `DotState`
(frontend/components/visualizations/MonteCarloMatrix.tsx): exactly the
four outcome classifications. -/
inductive DotState : Type where
  | success : DotState
  | warning : DotState
  | error : DotState
  | neutral : DotState

/-- A Monte Carlo visualization dot: position plus outcome state. -/
structure MCDot where
  x : ℚ
  y : ℚ
  state : DotState

/-- A state-exploration dot: position plus an active flag
(frontend/types/index.ts `Dot` as used by `state_update`). -/
structure StateDot where
  x : ℚ
  y : ℚ
  active : Bool

/-- Modelled from the spec: the engine's outbound channel messages
(section 6; the Python engine emitting them is not in the shipped
sources).  Payload shapes are the embedded frontend types. -/
inductive OutboundMessage : Type where
  | analysis (a : AnalysisResult) : OutboundMessage
  | stateUpdate (dots : List StateDot) : OutboundMessage
  | monteCarloUpdate (dots : List MCDot) : OutboundMessage
  | errorMsg (message : String) : OutboundMessage

/-- The wire name of a dot state. -/
def DotState.asString : DotState → String
  | .success => "success"
  | .warning => "warning"
  | .error => "error"
  | .neutral => "neutral"

/-- Serialize one alternatives entry. -/
def serializeAlt (alt : AltEntry) : JsonVal :=
  .jobj [("message", .jstr alt.message), ("score", .jnum alt.score)]

/-- Serialize an analysis payload. -/
def serializeAnalysis (a : AnalysisResult) : JsonVal :=
  .jobj [("score", .jnum a.score), ("message", .jstr a.message),
         ("alternatives", .jarr (a.alternatives.map serializeAlt))]

/-- Serialize one Monte Carlo dot. -/
def serializeMCDot (d : MCDot) : JsonVal :=
  .jobj [("x", .jnum d.x), ("y", .jnum d.y), ("state", .jstr d.state.asString)]

/-- Serialize one state-exploration dot. -/
def serializeStateDot (d : StateDot) : JsonVal :=
  .jobj [("x", .jnum d.x), ("y", .jnum d.y), ("active", .jbool d.active)]

/-- Serialize a whole outbound message in the channel's
type-plus-data envelope (frontend/types/index.ts `WebSocketMessage`). -/
def serializeMessage : OutboundMessage → JsonVal
  | .analysis a =>
    .jobj [("type", .jstr "analysis"), ("data", serializeAnalysis a)]
  | .stateUpdate ds =>
    .jobj [("type", .jstr "state_update"),
           ("data", .jobj [("dots", .jarr (ds.map serializeStateDot))])]
  | .monteCarloUpdate ds =>
    .jobj [("type", .jstr "monte_carlo_update"),
           ("data", .jobj [("dots", .jarr (ds.map serializeMCDot))])]
  | .errorMsg m =>
    .jobj [("type", .jstr "error"), ("data", .jobj [("message", .jstr m)])]

/-- Look up a field of a JSON object field list. -/
def lookupField (fs : List (String × JsonVal)) (k : String) : Option JsonVal :=
  (fs.find? (fun p => p.1 == k)).map (fun p => p.2)

/-- Is the optional value a JSON number? -/
def isNumV : Option JsonVal → Bool
  | some (.jnum _) => true
  | _ => false

/-- Is the optional value a JSON string? -/
def isStrV : Option JsonVal → Bool
  | some (.jstr _) => true
  | _ => false

/-- The four documented dot classifications, as wire names. -/
def stateNames : List String := ["success", "warning", "error", "neutral"]

/-- Modelled from the spec: the documented schema of one alternatives
entry, a JSON object carrying a string message and a numeric score. -/
def altMatchesSchema : JsonVal → Bool
  | .jobj fs => isStrV (lookupField fs "message") && isNumV (lookupField fs "score")
  | _ => false

/-- Modelled from the spec: the documented schema of one
monte_carlo_update dot, requiring a state drawn from exactly the four
classifications. -/
def mcDotMatchesSchema : JsonVal → Bool
  | .jobj fs =>
    isNumV (lookupField fs "x") && isNumV (lookupField fs "y") &&
    (match lookupField fs "state" with
     | some (.jstr s) => stateNames.contains s
     | _ => false)
  | _ => false

/-- Modelled from the spec: the documented schema of one state_update
dot. -/
def stateDotMatchesSchema : JsonVal → Bool
  | .jobj fs =>
    isNumV (lookupField fs "x") && isNumV (lookupField fs "y") &&
    (match lookupField fs "active" with
     | some (.jbool _) => true
     | _ => false)
  | _ => false

/-- Modelled from the spec: the documented schema of a serialized
outbound message (section 6 message list). -/
def messageMatchesSchema : JsonVal → Bool
  | .jobj fs =>
    match lookupField fs "type", lookupField fs "data" with
    | some (.jstr "analysis"), some (.jobj ds) =>
      isNumV (lookupField ds "score") && isStrV (lookupField ds "message") &&
      (match lookupField ds "alternatives" with
       | some (.jarr xs) => xs.all altMatchesSchema
       | _ => false)
    | some (.jstr "state_update"), some (.jobj ds) =>
      (match lookupField ds "dots" with
       | some (.jarr xs) => xs.all stateDotMatchesSchema
       | _ => false)
    | some (.jstr "monte_carlo_update"), some (.jobj ds) =>
      (match lookupField ds "dots" with
       | some (.jarr xs) => xs.all mcDotMatchesSchema
       | _ => false)
    | some (.jstr "error"), some (.jobj ds) => isStrV (lookupField ds "message")
    | _, _ => false
  | _ => false

/-! ## ConversationStateMatrix
(frontend/components/visualizations/ConversationStateMatrix.tsx)

The component declares no props.  Its effect body builds a fixed
15-row by 40-column grid of dots at x = col*8 + 8, y = row*8 + 8, with
`active` drawn from `Math.random() > 0.7` per dot; we model the random
draws as a Boolean source indexed by dot position.  Note that
AnalysisPanel.tsx passes `data=(stateData dots)` to this component even
though the component accepts no `data` prop, so the rendered dots never
depend on a received `state_update` snapshot. -/

/-- The dots rendered by `ConversationStateMatrix`, given the sequence
of `Math.random() > 0.7` outcomes. -/
def conversationStateMatrixDots (rand : Nat → Bool) : List StateDot :=
  (List.range (15 * 40)).map fun k =>
    { x := ((k % 40 : ℕ) : ℚ) * 8 + 8
      y := ((k / 40 : ℕ) : ℚ) * 8 + 8
      active := rand k }

/-! ## Engine configuration surface (server/.env.example) -/

/-- Embedding of server/.env.example as its key-value lines, in file
order. -/
def envExample : List (String × String) :=
  [("HOST", "0.0.0.0"), ("PORT", "8001"), ("RELOAD", "true"),
   ("WORKERS", "1"), ("LOG_LEVEL", "debug"),
   ("OPENROUTER_API_KEY", "your_api_key_here"),
   ("OPENROUTER_BASE_URL", "https://openrouter.ai/api/v1"),
   ("USER_PROXY_MODEL", "google/gemini-2.0-flash-lite-preview-02-05:free"),
   ("OPPONENT_PROXY_MODEL", "google/gemini-2.0-flash-lite-preview-02-05:free"),
   ("EVALUATOR_MODEL", "google/gemini-2.0-flash-lite-preview-02-05:free"),
   ("WS_PING_INTERVAL", "20"), ("WS_PING_TIMEOUT", "20"),
   ("TIMEOUT_KEEP_ALIVE", "30"), ("MAX_CONNECTIONS", "100"),
   ("RATE_LIMIT_REQUESTS", "100"), ("RATE_LIMIT_WINDOW", "60"),
   ("CACHE_SIZE", "1000"), ("CACHE_TTL", "3600"),
   ("MAX_DEPTH", "5"), ("BRANCHING_FACTOR", "3"),
   ("PRUNE_THRESHOLD", "0.1"), ("BATCH_SIZE", "10"),
   ("TEMPERATURE", "0.7"), ("TOP_P", "0.9"),
   ("CORS_ORIGINS", "[\"http://localhost:3000\"]"),
   ("ALLOWED_HOSTS", "[\"localhost\", \"127.0.0.1\"]"),
   ("DEBUG", "true"), ("ENVIRONMENT", "development")]

/-- Look up a configuration key in the example environment. -/
def envLookup (k : String) : Option String :=
  (envExample.find? (fun p => p.1 == k)).map (fun p => p.2)

/-! ## ChatInterface (frontend/components/ChatInterface.tsx) -/

/-- Message sender, from the `Message` type (frontend/types/index.ts). -/
inductive Sender : Type where
  | user : Sender
  | assistant : Sender

/-- Embedding of the frontend `Message` type; the timestamp is an
abstract clock value. -/
structure ChatMessage where
  id : String
  text : String
  sender : Sender
  timestamp : Nat

/-- Strip leading and trailing whitespace from a character list. -/
def trimChars (l : List Char) : List Char :=
  ((l.dropWhile Char.isWhitespace).reverse.dropWhile Char.isWhitespace).reverse

/-- Model of the JavaScript `String.prototype.trim()`. -/
def jsTrim (s : String) : String := ⟨trimChars s.data⟩

/-- The ChatInterface component state relevant to sending
(inputValue, isLoading, isConnected, messages, error hooks). -/
structure ChatState where
  inputValue : String
  isLoading : Bool
  isConnected : Bool
  messages : List ChatMessage
  errorText : Option String

/-- Embedding of `handleSendMessage`: guard on empty trimmed input or an
in-flight send, then optimistically append the user message and invoke
`sendMessage(inputValue)`.  `newId` and `now` stand for `generateId()`
and `new Date()`; `sendOk` is whether the awaited `sendMessage` resolved
(on rejection the catch block records the error and clears the loading
flag).  The second component is the text passed to `sendMessage`, when
it was invoked. -/
def handleSendMessage (s : ChatState) (newId : String) (now : Nat)
    (sendOk : Bool) : ChatState × Option String :=
  if jsTrim s.inputValue = "" ∨ s.isLoading then (s, none)
  else
    let m : ChatMessage := ⟨newId, s.inputValue, .user, now⟩
    if sendOk then
      ({ s with isLoading := true, errorText := none,
                messages := s.messages ++ [m], inputValue := "" },
       some s.inputValue)
    else
      ({ s with isLoading := false,
                errorText := some "Failed to send message. Please try again.",
                messages := s.messages ++ [m] },
       some s.inputValue)

/-- Embedding of the send button's `disabled` condition:
`!inputValue.trim() || !isConnected || isLoading`. -/
def sendButtonDisabled (s : ChatState) : Bool :=
  (jsTrim s.inputValue == "") || (!s.isConnected) || s.isLoading

/-! ## AnalysisPanel results history (frontend/components/AnalysisPanel.tsx) -/

/-- Embedding of the `analysis` event handler's state update:
prepend the new result and keep only the first 3. -/
def handleAnalysisEvent (prev : List AnalysisResult) (data : AnalysisResult) :
    List AnalysisResult :=
  (data :: prev).take 3

/-- The results list after a sequence of analysis events, applied in
arrival order starting from the initial empty list. -/
def resultsAfterEvents (events : List AnalysisResult) : List AnalysisResult :=
  events.foldl handleAnalysisEvent []

/-! ## Conversation tree engine model

Modelled from the spec: the Python prediction engine (ConversationNode,
SimulationConfig, TreeBuilder.expand, Pruner.prune of sections 3-4.5)
is not among the shipped sources; these definitions follow the
specification text.  Probabilities are exact rationals. -/

/-- Modelled from the spec: the speaker of a conversation turn
(section 3, ConversationTurn). -/
inductive Speaker : Type where
  | user : Speaker
  | opponent : Speaker

/-- The other speaker: expansion alternates roles by turn. -/
def Speaker.other : Speaker → Speaker
  | .user => .opponent
  | .opponent => .user

/-- Modelled from the spec: ConversationNode (section 3): utterance,
speaker, edge probability, derived path probability, optional evaluator
score, depth from the root, and the ordered children. -/
inductive ConversationNode : Type where
  | mk (text : String) (speaker : Speaker) (edgeProbability : ℚ)
       (pathProbability : ℚ) (score : Option ℚ) (depth : Nat)
       (children : List ConversationNode) : ConversationNode

/-- The node's utterance. -/
def ConversationNode.text : ConversationNode → String
  | .mk t _ _ _ _ _ _ => t

/-- The node's speaker. -/
def ConversationNode.speaker : ConversationNode → Speaker
  | .mk _ s _ _ _ _ _ => s

/-- The likelihood assigned by the generator, conditioned on the
parent. -/
def ConversationNode.edgeProbability : ConversationNode → ℚ
  | .mk _ _ e _ _ _ _ => e

/-- The product of edge probabilities along the root-to-node path;
recomputed whenever a node is attached. -/
def ConversationNode.pathProbability : ConversationNode → ℚ
  | .mk _ _ _ p _ _ _ => p

/-- The node's depth (root depth = 0). -/
def ConversationNode.depth : ConversationNode → Nat
  | .mk _ _ _ _ _ d _ => d

/-- The ordered children. -/
def ConversationNode.children : ConversationNode → List ConversationNode
  | .mk _ _ _ _ _ _ cs => cs

/-- Modelled from the spec: SimulationConfig (section 3). -/
structure SimulationConfig where
  maxDepth : Nat
  branchingFactor : Nat
  pruneThreshold : ℚ
  batchSize : Nat
  temperature : ℚ
  topP : ℚ

/-- Modelled from the spec: TreeBuilder.expand (section 4.4).  For a
leaf node under maxDepth it attaches one child per generator candidate
(text plus reported probability), with the next speaker alternated and
`pathProbability` recomputed as parent path probability times the edge
probability; a node that already has children is left unchanged
(explicit idempotence guard). -/
def expand (cfg : SimulationConfig) (node : ConversationNode)
    (candidates : List (String × ℚ)) : ConversationNode :=
  match node with
  | .mk t s e p sc d [] =>
    if d < cfg.maxDepth then
      .mk t s e p sc d
        (candidates.map fun c =>
          .mk c.1 s.other c.2 (p * c.2) none (d + 1) [])
    else .mk t s e p sc d []
  | n => n

/-- Local well-formedness of a children list under a parent with the
given path probability: every child's path probability is exactly the
parent's times its edge probability, recursively. -/
def wfChildren (p : ℚ) : List ConversationNode → Bool
  | [] => true
  | .mk _ _ e q _ _ cs :: rest =>
    decide (q = p * e) && wfChildren q cs && wfChildren p rest

/-- The spec's path-probability invariant for a whole tree. -/
def ConversationNode.wellFormed (n : ConversationNode) : Bool :=
  wfChildren n.pathProbability n.children

/-- All parent-child pairs under the given parent and children list,
in depth-first order. -/
def edgesUnder (parent : ConversationNode) :
    List ConversationNode → List (ConversationNode × ConversationNode)
  | [] => []
  | c@(.mk _ _ _ _ _ _ cs) :: rest =>
    (parent, c) :: (edgesUnder c cs ++ edgesUnder parent rest)

/-- All parent-child pairs of a tree. -/
def edges (n : ConversationNode) : List (ConversationNode × ConversationNode) :=
  edgesUnder n n.children

/-- Modelled from the spec: the depth-first pruning pass of
Pruner.prune (section 4.5) over a children list: a child whose path
probability is below the threshold is removed with its whole subtree;
a surviving child keeps its order and is pruned recursively.  (The
source contract also returns a pruned-node count, which the claims do
not use.) -/
def pruneChildren (threshold : ℚ) : List ConversationNode → List ConversationNode
  | [] => []
  | .mk t s e q sc d cs :: rest =>
    if q < threshold then pruneChildren threshold rest
    else .mk t s e q sc d (pruneChildren threshold cs) :: pruneChildren threshold rest

/-- Modelled from the spec: Pruner.prune on a tree; the root itself is
never removed. -/
def prune (t : ConversationNode) (threshold : ℚ) : ConversationNode :=
  match t with
  | .mk tx s e p sc d cs => .mk tx s e p sc d (pruneChildren threshold cs)

/-- The identifying fields of a node, everything but its children. -/
structure NodeLabel where
  text : String
  speaker : Speaker
  edgeProbability : ℚ
  pathProbability : ℚ
  depth : Nat

/-- The label of a node. -/
def ConversationNode.label : ConversationNode → NodeLabel
  | .mk t s e p _ d _ => ⟨t, s, e, p, d⟩

/-- Labels of every node reachable from a children list, in depth-first
order. -/
def properLabels : List ConversationNode → List NodeLabel
  | [] => []
  | c@(.mk _ _ _ _ _ _ cs) :: rest =>
    c.label :: (properLabels cs ++ properLabels rest)

/-- An independent description of which nodes survive pruning: a node
survives exactly when its own path probability and that of every
ancestor below the root reach the threshold. -/
def survivorLabels (threshold : ℚ) : List ConversationNode → List NodeLabel
  | [] => []
  | c@(.mk _ _ _ q _ _ cs) :: rest =>
    if q < threshold then survivorLabels threshold rest
    else c.label :: (survivorLabels threshold cs ++ survivorLabels threshold rest)

/-- Every path probability in the forest is nonnegative. -/
def probsNonneg : List ConversationNode → Bool
  | [] => true
  | .mk _ _ _ q _ _ cs :: rest =>
    decide (0 ≤ q) && probsNonneg cs && probsNonneg rest

/-- A sample child node used to instantiate the tree theorems. -/
def demoChild : ConversationNode :=
  .mk "hello" .opponent (1 / 2) (1 / 2) none 1 []

/-- A sample two-node tree: a probability-1 root with one child of edge
probability 1/2. -/
def demoNode : ConversationNode :=
  .mk "root" .user 1 1 none 0 [demoChild]

/-- A sample configuration with the spec's default parameters. -/
def demoCfg : SimulationConfig :=
  ⟨5, 3, 1 / 10, 10, 7 / 10, 9 / 10⟩

/-! ## Theorems -/

/-- In a locally well-formed forest, every parent-child pair produced by
the edge enumeration satisfies the exact product rule. -/
theorem wfChildren_edges : ∀ (parent : ConversationNode) (l : List ConversationNode),
    wfChildren parent.pathProbability l = true →
    ∀ pc ∈ edgesUnder parent l,
      pc.2.pathProbability = pc.1.pathProbability * pc.2.edgeProbability
  | _, [], _, _, hpc => by simp [edgesUnder] at hpc
  | parent, .mk t s e q sc d cs :: rest, h, pc, hpc => by
    simp only [wfChildren, Bool.and_eq_true, decide_eq_true_eq] at h
    obtain ⟨⟨hq, hcs⟩, hrest⟩ := h
    simp only [edgesUnder, List.mem_cons, List.mem_append] at hpc
    rcases hpc with hpc | hpc | hpc
    · subst hpc
      simp [ConversationNode.pathProbability, ConversationNode.edgeProbability, hq]
    · exact wfChildren_edges (.mk t s e q sc d cs) cs hcs pc hpc
    · exact wfChildren_edges parent rest hrest pc hpc

/-- A freshly attached children batch is well formed: each child's path
probability is computed as the parent's times its edge probability. -/
theorem wfChildren_attach (p : ℚ) (s : Speaker) (d : Nat) :
    ∀ cands : List (String × ℚ),
      wfChildren p (cands.map fun c =>
        ConversationNode.mk c.1 s c.2 (p * c.2) none d []) = true
  | [] => by simp [wfChildren]
  | c :: rest => by
    simp [wfChildren, wfChildren_attach p s d rest]

/-- Expanding a node that already has children is a no-op. -/
theorem expand_noop (cfg : SimulationConfig) (n : ConversationNode)
    (cands : List (String × ℚ)) (h : n.children ≠ []) : expand cfg n cands = n := by
  cases n with
  | mk t s e p sc d cs =>
    cases cs with
    | nil => simp [ConversationNode.children] at h
    | cons c cs' => rfl

/-- The depth-first labels of a pruned forest coincide with the
independent survivor description: keep a node exactly when its own path
probability and those of all its ancestors reach the threshold. -/
theorem properLabels_pruneChildren (θ : ℚ) : ∀ l : List ConversationNode,
    properLabels (pruneChildren θ l) = survivorLabels θ l
  | [] => by simp [pruneChildren, survivorLabels, properLabels]
  | .mk t s e q sc d cs :: rest => by
    by_cases hq : q < θ
    · simp [pruneChildren, survivorLabels, hq, properLabels_pruneChildren θ rest]
    · simp [pruneChildren, survivorLabels, hq, properLabels,
        properLabels_pruneChildren θ cs, properLabels_pruneChildren θ rest,
        ConversationNode.label]

/-- Every node surviving a pruning pass has path probability at least
the threshold. -/
theorem pruneChildren_ge (θ : ℚ) : ∀ l : List ConversationNode,
    ∀ lb ∈ properLabels (pruneChildren θ l), θ ≤ lb.pathProbability
  | [] => by simp [pruneChildren, properLabels]
  | .mk t s e q sc d cs :: rest => by
    by_cases hq : q < θ
    · simp only [pruneChildren, if_pos hq]
      exact pruneChildren_ge θ rest
    · intro lb hlb
      simp only [pruneChildren, if_neg hq, properLabels, List.mem_cons,
        List.mem_append] at hlb
      rcases hlb with hlb | hlb | hlb
      · subst hlb
        simpa [ConversationNode.label] using not_lt.mp hq
      · exact pruneChildren_ge θ cs lb hlb
      · exact pruneChildren_ge θ rest lb hlb

/-- Pruning with threshold 0 keeps every node of a forest with
nonnegative probabilities. -/
theorem pruneChildren_zero : ∀ l : List ConversationNode,
    probsNonneg l = true → pruneChildren 0 l = l
  | [] => fun _ => by simp [pruneChildren]
  | .mk t s e q sc d cs :: rest => by
    intro h
    simp only [probsNonneg, Bool.and_eq_true, decide_eq_true_eq] at h
    obtain ⟨⟨hq, hcs⟩, hrest⟩ := h
    simp [pruneChildren, not_lt.mpr hq, pruneChildren_zero cs hcs,
      pruneChildren_zero rest hrest]

/-- C1: in a well-formed tree every parent-child pair satisfies the
path-probability product rule within tolerance 1e-6 (exactly, over the
rationals), and the invariant is preserved by the child-attaching
operation expand, which recomputes pathProbability on attachment. -/
theorem C1_path_probability_invariant (t : ConversationNode)
    (hwf : t.wellFormed = true) :
    (∀ pc ∈ edges t,
      |pc.2.pathProbability - pc.1.pathProbability * pc.2.edgeProbability| ≤
        1 / 1000000) ∧
    (∀ (cfg : SimulationConfig) (cands : List (String × ℚ)),
      (expand cfg t cands).wellFormed = true) := by
  constructor
  · intro pc hpc
    rw [wfChildren_edges t t.children hwf pc hpc]
    simp
  · intro cfg cands
    cases t with
    | mk tx s e p sc d cs =>
      cases cs with
      | nil =>
        by_cases hd : d < cfg.maxDepth
        · simp only [expand, if_pos hd]
          simpa [ConversationNode.wellFormed, ConversationNode.pathProbability,
            ConversationNode.children] using wfChildren_attach p s.other (d + 1) cands
        · simpa [expand, if_neg hd] using hwf
      | cons c cs' => simpa [expand] using hwf

/-- Witness for C1 at the sample tree: it is well formed, and its only
edge satisfies the product rule within tolerance. -/
theorem C1_witness :
    demoNode.wellFormed = true ∧
    |demoChild.pathProbability -
      demoNode.pathProbability * demoChild.edgeProbability| ≤ 1 / 1000000 := by
  have hwf : demoNode.wellFormed = true := by
    simp [ConversationNode.wellFormed, demoNode, demoChild,
      ConversationNode.pathProbability, ConversationNode.children, wfChildren]
  refine ⟨hwf, ?_⟩
  refine (C1_path_probability_invariant demoNode hwf).1 (demoNode, demoChild) ?_
  simp [edges, edgesUnder, demoNode, demoChild, ConversationNode.children]

/-- C2: pruning never removes the root (its label survives), every
remaining non-root node has path probability at least the threshold,
the surviving labels are exactly those whose whole ancestor chain below
the root reaches the threshold, pruning at 0 is a no-op on trees with
nonnegative probabilities, and pruning at 1 removes every non-root node
with probability strictly below 1. -/
theorem C2_prune_removes_exactly_below_threshold (t : ConversationNode) (θ : ℚ) :
    (prune t θ).label = t.label ∧
    properLabels ((prune t θ).children) = survivorLabels θ t.children ∧
    (∀ lb ∈ properLabels ((prune t θ).children), θ ≤ lb.pathProbability) ∧
    (probsNonneg t.children = true → prune t 0 = t) ∧
    (∀ lb ∈ properLabels ((prune t 1).children), ¬ lb.pathProbability < 1) := by
  cases t with
  | mk tx s e p sc d cs =>
    refine ⟨rfl, ?_, ?_, ?_, ?_⟩
    · simpa [prune, ConversationNode.children] using properLabels_pruneChildren θ cs
    · intro lb hlb
      refine pruneChildren_ge θ cs lb ?_
      simpa [prune, ConversationNode.children] using hlb
    · intro h
      simp only [ConversationNode.children] at h
      simp [prune, pruneChildren_zero cs h]
    · intro lb hlb
      refine not_lt.mpr (pruneChildren_ge 1 cs lb ?_)
      simpa [prune, ConversationNode.children] using hlb

/-- Witness for C2 at the sample tree: its probabilities are
nonnegative and pruning with threshold 0 leaves it unchanged, and its
child (probability 1/2) survives threshold 1/4. -/
theorem C2_witness :
    probsNonneg demoNode.children = true ∧
    prune demoNode 0 = demoNode ∧
    (1 / 4 : ℚ) ≤ demoChild.label.pathProbability := by
  have hnn : probsNonneg demoNode.children = true := by
    simp [demoNode, demoChild, ConversationNode.children, probsNonneg]
  refine ⟨hnn, (C2_prune_removes_exactly_below_threshold demoNode 0).2.2.2.1 hnn, ?_⟩
  refine (C2_prune_removes_exactly_below_threshold demoNode (1 / 4)).2.2.1
    demoChild.label ?_
  simp only [prune, demoNode, demoChild, ConversationNode.children, pruneChildren]
  rw [if_neg (by norm_num : ¬ ((1 : ℚ) / 2 < 1 / 4))]
  simp [properLabels, ConversationNode.label]

/-- C3: expand is explicitly idempotent: a node that already has
children is left exactly unchanged, so a second expand call after one
that attached children appends no duplicates. -/
theorem C3_expand_idempotent (cfg : SimulationConfig) (n : ConversationNode)
    (cands cands' : List (String × ℚ)) :
    (n.children ≠ [] → expand cfg n cands = n) ∧
    ((expand cfg n cands).children ≠ [] →
      expand cfg (expand cfg n cands) cands' = expand cfg n cands) :=
  ⟨expand_noop cfg n cands, expand_noop cfg (expand cfg n cands) cands'⟩

/-- Witness for C3 at the sample tree: the root already has a child, so
expanding it again changes nothing. -/
theorem C3_witness :
    demoNode.children ≠ [] ∧
    expand demoCfg demoNode [("x", 1 / 3)] = demoNode := by
  have h : demoNode.children ≠ [] := by
    simp [demoNode, ConversationNode.children]
  exact ⟨h, (C3_expand_idempotent demoCfg demoNode [("x", 1 / 3)] []).1 h⟩

/-- After a failed attempt the wrapper waits the doubled delay and
recurses; success at attempt `attempt + k` after k failures yields the
operation's value and the geometric delay sequence. -/
theorem retryAux_ok {E A : Type} (f : Nat → Except E A) (d : Nat) :
    ∀ (k attempt remaining : Nat) (a : A), k ≤ remaining →
      (∀ i, i < k → ∃ e, f (attempt + i) = .error e) →
      f (attempt + k) = .ok a →
      retryAux f d attempt remaining =
        ((List.range k).map fun i => d * 2 ^ (attempt + i), .ok a)
  | 0, attempt, 0, a, _, _, hok => by
    simp only [Nat.add_zero] at hok
    simp [retryAux, hok]
  | 0, attempt, remaining + 1, a, _, _, hok => by
    simp only [Nat.add_zero] at hok
    simp [retryAux, hok]
  | k + 1, attempt, 0, a, hk, _, _ => by omega
  | k + 1, attempt, remaining + 1, a, hk, hfail, hok => by
    obtain ⟨e0, he0⟩ := hfail 0 (by omega)
    simp only [Nat.add_zero] at he0
    have ih := retryAux_ok f d k (attempt + 1) remaining a (by omega)
      (fun i hi => by
        obtain ⟨e, he⟩ := hfail (i + 1) (by omega)
        exact ⟨e, by rw [show attempt + 1 + i = attempt + (i + 1) by omega]; exact he⟩)
      (by rw [show attempt + 1 + k = attempt + (k + 1) by omega]; exact hok)
    simp only [retryAux, he0, ih, Prod.mk.injEq]
    refine ⟨?_, trivial⟩
    rw [List.range_succ_eq_map]
    simp only [List.map_cons, List.map_map, Function.comp, Nat.add_zero]
    refine congrArg₂ List.cons rfl ?_
    apply List.map_congr_left
    intro i _
    congr 2
    omega

/-- When every attempt up to the budget fails, the wrapper performs all
delays and ends with the outcome of the final attempt. -/
theorem retryAux_allerr {E A : Type} (f : Nat → Except E A) (d : Nat) :
    ∀ (remaining attempt : Nat),
      (∀ i, i ≤ remaining → ∃ e, f (attempt + i) = .error e) →
      retryAux f d attempt remaining =
        ((List.range remaining).map fun i => d * 2 ^ (attempt + i),
         f (attempt + remaining))
  | 0, attempt, _ => by simp [retryAux]
  | remaining + 1, attempt, hall => by
    obtain ⟨e0, he0⟩ := hall 0 (by omega)
    simp only [Nat.add_zero] at he0
    have ih := retryAux_allerr f d remaining (attempt + 1)
      (fun i hi => by
        obtain ⟨e, he⟩ := hall (i + 1) (by omega)
        exact ⟨e, by rw [show attempt + 1 + i = attempt + (i + 1) by omega]; exact he⟩)
    simp only [retryAux, he0, ih, Prod.mk.injEq]
    refine ⟨?_, by rw [show attempt + 1 + remaining = attempt + (remaining + 1) by omega]⟩
    rw [List.range_succ_eq_map]
    simp only [List.map_cons, List.map_map, Function.comp, Nat.add_zero]
    refine congrArg₂ List.cons rfl ?_
    apply List.map_congr_left
    intro i _
    congr 2
    omega

/-- C4: the retry wrapper returns the operation's value as soon as an
attempt at or before maxRetries succeeds, having awaited a delay of
baseDelay * 2 ^ k after each failed attempt k; when all
maxRetries + 1 attempts fail it propagates the last attempt's error
without retrying further. -/
theorem C4_retry_exponential_backoff {E A : Type} (f : Nat → Except E A)
    (maxRetries baseDelay : Nat) :
    (∀ (k : Nat) (a : A), k ≤ maxRetries →
        (∀ i, i < k → ∃ e, f i = Except.error e) → f k = Except.ok a →
        createRetryFn f maxRetries baseDelay =
          ((List.range k).map fun i => baseDelay * 2 ^ i, Except.ok a)) ∧
    ((∀ i, i ≤ maxRetries → ∃ e, f i = Except.error e) →
        createRetryFn f maxRetries baseDelay =
          ((List.range maxRetries).map fun i => baseDelay * 2 ^ i, f maxRetries)) := by
  constructor
  · intro k a hk hfail hok
    have h := retryAux_ok f baseDelay k 0 maxRetries a hk
      (fun i hi => by simpa using hfail i hi) (by simpa using hok)
    simpa [createRetryFn] using h
  · intro hall
    have h := retryAux_allerr f baseDelay maxRetries 0
      (fun i hi => by simpa using hall i hi)
    simpa [createRetryFn] using h

/-- An operation that fails on its first two attempts and then
succeeds. -/
def retryDemoFlaky : Nat → Except String Nat :=
  fun i => if i < 2 then .error "boom" else .ok 42

/-- An operation that always fails. -/
def retryDemoDown : Nat → Except String Nat := fun _ => .error "down"

/-- Witness for C4 at concrete operations: the flaky operation succeeds
on attempt 2 of a 3-retry budget after delays 10 and 20; the
always-failing operation exhausts a 1-retry budget after one delay of 5
and propagates the error. -/
theorem C4_witness :
    createRetryFn retryDemoFlaky 3 10 = ([10, 20], .ok 42) ∧
    createRetryFn retryDemoDown 1 5 = ([5], .error "down") := by
  constructor
  · have h := (C4_retry_exponential_backoff retryDemoFlaky 3 10).1 2 42 (by omega)
      (fun i hi => ⟨"boom", by simp [retryDemoFlaky, hi]⟩)
      (by simp [retryDemoFlaky])
    rw [h]
    rfl
  · have h := (C4_retry_exponential_backoff retryDemoDown 1 5).2
      (fun i _ => ⟨"down", rfl⟩)
    rw [h]
    rfl

/-- A serialized alternatives entry matches the alternatives schema. -/
theorem altMatchesSchema_serializeAlt (alt : AltEntry) :
    altMatchesSchema (serializeAlt alt) = true := by
  simp [altMatchesSchema, serializeAlt, lookupField, isNumV, isStrV]

/-- A serialized Monte Carlo dot matches the dot schema; in particular
its state name is one of the four classifications. -/
theorem mcDotMatchesSchema_serializeMCDot (dot : MCDot) :
    mcDotMatchesSchema (serializeMCDot dot) = true := by
  cases dot with
  | mk x y st =>
    cases st <;>
      simp [mcDotMatchesSchema, serializeMCDot, lookupField, isNumV,
        DotState.asString, stateNames]

/-- A serialized state-exploration dot matches the dot schema. -/
theorem stateDotMatchesSchema_serializeStateDot (dot : StateDot) :
    stateDotMatchesSchema (serializeStateDot dot) = true := by
  simp [stateDotMatchesSchema, serializeStateDot, lookupField, isNumV]

/-- C5: every serialized outbound engine message satisfies its
documented schema: an analysis message carries a numeric score, a
string message and alternatives each carrying a message and a score,
and every monte_carlo_update dot carries a state drawn from exactly the
four classifications success, warning, error, neutral. -/
theorem C5_outbound_message_schema (m : OutboundMessage) :
    messageMatchesSchema (serializeMessage m) = true := by
  cases m with
  | analysis a =>
    simp only [serializeMessage, serializeAnalysis, messageMatchesSchema,
      lookupField, isNumV, isStrV]
    simp [List.all_eq_true, altMatchesSchema_serializeAlt]
  | stateUpdate ds =>
    simp only [serializeMessage, messageMatchesSchema, lookupField]
    simp [List.all_eq_true, stateDotMatchesSchema_serializeStateDot]
  | monteCarloUpdate ds =>
    simp only [serializeMessage, messageMatchesSchema, lookupField]
    simp [List.all_eq_true, mcDotMatchesSchema_serializeMCDot]
  | errorMsg msg =>
    simp [serializeMessage, messageMatchesSchema, lookupField, isStrV]

/-- C6: the state-exploration matrix renders a fixed 15-by-40 grid of
600 dots whose activity comes from the random source, for every random
source; in particular the rendered dots are not the dots supplied by a
state_update snapshot (such as a snapshot holding the single dot
(8, 8, active)), because the component accepts no snapshot at all. -/
theorem C6_state_matrix_independent_of_snapshot (rand : Nat → Bool) :
    (conversationStateMatrixDots rand).length = 600 ∧
    conversationStateMatrixDots rand ≠
      [{ x := 8, y := 8, active := true }] := by
  have hlen : (conversationStateMatrixDots rand).length = 600 := by
    simp [conversationStateMatrixDots]
  refine ⟨hlen, ?_⟩
  intro h
  have hl := congrArg List.length h
  rw [hlen] at hl
  simp at hl

/-- C7: the engine's example configuration carries the spec's default
simulation parameters: maxDepth 5, branchingFactor 3, pruneThreshold
0.1, and also provides batchSize, temperature and topP values. -/
theorem C7_config_defaults :
    envLookup "MAX_DEPTH" = some "5" ∧
    envLookup "BRANCHING_FACTOR" = some "3" ∧
    envLookup "PRUNE_THRESHOLD" = some "0.1" ∧
    envLookup "BATCH_SIZE" = some "10" ∧
    envLookup "TEMPERATURE" = some "0.7" ∧
    envLookup "TOP_P" = some "0.9" :=
  ⟨rfl, rfl, rfl, rfl, rfl, rfl⟩

/-- C8: parseWSMessage is total: for every input string it returns the
decoded value when JSON parsing succeeds and null (none) when parsing
fails, never propagating an exception to the caller. -/
theorem C8_parseWSMessage_total (s : String) :
    (∀ v, jsonParse s = .ok v → parseWSMessage s = some v) ∧
    (∀ e, jsonParse s = .error e → parseWSMessage s = none) := by
  constructor
  · intro v h
    simp [parseWSMessage, h]
  · intro e h
    simp [parseWSMessage, h]

/-- Witness for C8 at concrete channel data: a valid JSON array decodes
to its value and malformed data yields none. -/
theorem C8_witness :
    parseWSMessage "[1, 2]" = some (JsonVal.jarr [.jnum 1, .jnum 2]) ∧
    parseWSMessage "not json" = none := by
  constructor
  · exact (C8_parseWSMessage_total "[1, 2]").1 _ rfl
  · exact (C8_parseWSMessage_total "not json").2 "bad literal" rfl

/-- C9: a message is sent only when the trimmed input is non-empty and
no send is in flight; on whitespace-only or empty input, or while
loading, nothing is sent and the send button is disabled. -/
theorem C9_no_empty_send (s : ChatState) (newId : String) (now : Nat)
    (sendOk : Bool) :
    ((handleSendMessage s newId now sendOk).2 ≠ none →
      jsTrim s.inputValue ≠ "" ∧ s.isLoading = false) ∧
    (jsTrim s.inputValue = "" ∨ s.isLoading = true →
      (handleSendMessage s newId now sendOk).2 = none ∧
      sendButtonDisabled s = true) := by
  constructor
  · intro hne
    by_cases hc : jsTrim s.inputValue = "" ∨ s.isLoading
    · exfalso
      apply hne
      simp [handleSendMessage, hc]
    · push_neg at hc
      exact ⟨hc.1, by simpa using hc.2⟩
  · intro hc
    have hc' : jsTrim s.inputValue = "" ∨ s.isLoading = true := hc
    constructor
    · simp only [handleSendMessage]
      rw [if_pos (by simpa using hc')]
    · rcases hc' with h | h <;> simp [sendButtonDisabled, h]

/-- Witness for C9: with whitespace-only input nothing is sent and the
button is disabled. -/
theorem C9_witness :
    (handleSendMessage ⟨"   ", false, true, [], none⟩ "id1" 0 true).2 = none ∧
    sendButtonDisabled ⟨"   ", false, true, [], none⟩ = true :=
  (C9_no_empty_send ⟨"   ", false, true, [], none⟩ "id1" 0 true).2
    (Or.inl (by decide))

/-- C10: each analysis event prepends the new result and truncates, so
the history always has at most 3 entries, its first entry is the newest
result, and the fold over an event sequence applies exactly this step at
every event. -/
theorem C10_bounded_newest_first_history (prev : List AnalysisResult)
    (d : AnalysisResult) :
    (handleAnalysisEvent prev d).length ≤ 3 ∧
    (handleAnalysisEvent prev d).head? = some d ∧
    (∀ evs : List AnalysisResult,
      resultsAfterEvents (evs ++ [d]) =
        handleAnalysisEvent (resultsAfterEvents evs) d) := by
  refine ⟨?_, ?_, ?_⟩
  · simp [handleAnalysisEvent]
  · simp [handleAnalysisEvent]
  · intro evs
    simp [resultsAfterEvents, List.foldl_append]

end ConvPred
